import Mathlib

/-!
Shallow embedding of the request routing, dispatch, rate-limiting and
result-aggregation pipeline of `src/server/real-moe-system.ts` from the
repository `jnsrikanth/moe-app`, together with theorems settling the
frozen claims C1..C10 about that code.

Modelling conventions:
* JavaScript numbers are modelled as rationals (`ℚ`); `NaN` is modelled
  explicitly where the code can produce it (see `JSNum`).  Timestamps
  (`Date.now()` values, milliseconds) are natural numbers.
* Strings are modelled as Lean `String` / `List Char`.  The JavaScript
  regular expressions appearing in `computeFinalDecision` are embedded as
  dedicated decidable matching functions that mirror the exact
  backtracking behaviour of each pattern (documented at each definition).
* `JSON.parse` (used by `parseMaybeJSON`) is modelled by an executable
  JSON parser over a JSON value type (`JVal`); JavaScript dynamic-value
  coercions (truthiness, `ToNumber`, `String(...)`) are modelled by
  explicit functions.  ASCII semantics are used for case folding and
  whitespace classes; unicode-specific corner behaviour of JavaScript
  (full `toLowerCase`, unicode space classes) is outside the model.
* Effectful code is modelled by pure state-passing functions: the rate
  limiter becomes a transition on its `nextAllowedAt` timestamp, the
  lifecycle manager's settle-handling becomes a function from the list of
  settled worker outcomes to the resulting request status, aggregation
  input and error-log entries.
-/

namespace MoeApp

/-! ## Character class models (JavaScript regex classes, ASCII semantics)

`\w` in a JavaScript regex (no `u` flag) is exactly `[A-Za-z0-9_]`,
`\d` is `[0-9]`; `\s` is modelled by the ASCII whitespace characters. -/

def isWordChar (c : Char) : Bool :=
  (('a' ≤ c) && (c ≤ 'z')) || (('A' ≤ c) && (c ≤ 'Z')) ||
  (('0' ≤ c) && (c ≤ '9')) || (c = '_')

def isDigitChar (c : Char) : Bool :=
  ('0' ≤ c) && (c ≤ '9')

def isJsSpace (c : Char) : Bool :=
  (c = ' ') || (c = '\t') || (c = '\n') || (c = '\r') ||
  (c = '\x0b') || (c = '\x0c')

/-- Model of `String.prototype.toLowerCase` (ASCII case folding). -/
def jsLower (s : String) : String :=
  String.mk (s.data.map Char.toLower)

/-- Model of `String.prototype.includes` (substring containment). -/
def containsSub (hay sub : String) : Bool :=
  hay.data.tails.any (fun t => sub.data.isPrefixOf t)

/-! ## Fallback routing (`fallbackRouting`, real-moe-system.ts lines 167-176)

```
const type = request.type.toLowerCase();
if (type.includes('loan') || type.includes('credit')) return ['credit-agent'];
if (type.includes('fraud') || type.includes('claim')) return ['fraud-agent'];
if (type.includes('esg') || type.includes('investment')) return ['esg-agent'];
return ['credit-agent', 'fraud-agent'];
```
The function reads only the request's `type` field, so it is embedded as a
function of that text. -/

def fallbackRouting (reqType : String) : List String :=
  let t := jsLower reqType
  if containsSub t "loan" || containsSub t "credit" then ["credit-agent"]
  else if containsSub t "fraud" || containsSub t "claim" then ["fraud-agent"]
  else if containsSub t "esg" || containsSub t "investment" then ["esg-agent"]
  else ["credit-agent", "fraud-agent"]

/-! ## Rate limiter (`withRateLimit`, real-moe-system.ts lines 578-592)

```
const now = Date.now();
const wait = Math.max(0, this.nextAllowedAt - now);
if (wait > 0) { await new Promise(res => setTimeout(res, wait)); }
try {
  const result = await runner();
  this.nextAllowedAt = Date.now() + this.minIntervalMs;
  return result;
} catch (e) {
  this.nextAllowedAt = Date.now() + this.minIntervalMs;
  throw e;
}
```
A single call is modelled as a transition: the call enters at time `now`
with the limiter state `next` (= `nextAllowedAt`), starts its runner at
`max now next`, the runner settles after `durationMs`, and on BOTH
branches (success and error) the state becomes `settleTime + minIntervalMs`;
on the error branch the error object (which may carry a provider
retry-after hint) is re-thrown unchanged — the hint is never read. -/

/-- Outcome of the wrapped runner: success, or a thrown error optionally
carrying a provider retry-after hint (seconds), as a 429 from the SDK
would. `withRateLimit` never inspects the hint. -/
inductive RunnerOutcome where
  | success (durationMs : ℕ)
  | failure (durationMs : ℕ) (retryAfterSeconds : Option ℕ)
deriving DecidableEq, Repr

/-- Result of one `withRateLimit` call: the start time of the outbound
call, the new `nextAllowedAt`, and whether the error was re-raised. -/
structure RateLimitResult where
  startTime : ℕ
  nextAllowedAt : ℕ
  raised : Bool
deriving DecidableEq, Repr

def withRateLimitCall (minIntervalMs next now : ℕ) (outcome : RunnerOutcome) :
    RateLimitResult :=
  let start := max now next
  match outcome with
  | .success d => ⟨start, start + d + minIntervalMs, false⟩
  | .failure d _hint => ⟨start, start + d + minIntervalMs, true⟩

/-- Serialized composition of `withRateLimit` calls: each call enters
after the previous one has settled and updated `nextAllowedAt`, so each
call observes the state written by its predecessor.  Input: the current
`nextAllowedAt` and a list of (entry time, runner duration); output: the
list of call start times. -/
def runSeq (minIntervalMs : ℕ) : ℕ → List (ℕ × ℕ) → List ℕ
  | _, [] => []
  | next, (e, d) :: rest =>
    let s := max e next
    s :: runSeq minIntervalMs (s + d + minIntervalMs) rest

/-- Event semantics of `withRateLimit` under concurrently entered calls
(the fan-out in `processRequest` invokes several agents at once, each of
which calls `withRateLimit`).  `nextAllowedAt` is READ ONCE at entry
(line 579-580) and WRITTEN only when the runner settles (lines 586/589),
so a call entering at time `e` observes the write of the latest runner
that settled at some time `f ≤ e` (value `f + minIntervalMs`), or the
initial value if none has settled yet.  Calls are listed in entry order;
the function returns each call's (start, settle) times. -/
def observedNext (minIntervalMs next0 : ℕ) (fins : List ℕ) (e : ℕ) : ℕ :=
  match (fins.filter (fun f => f ≤ e)).max? with
  | none => next0
  | some f => f + minIntervalMs

def rateLimitTraceAux (minIntervalMs next0 : ℕ) (fins : List ℕ) :
    List (ℕ × ℕ) → List (ℕ × ℕ)
  | [] => []
  | (e, d) :: rest =>
    let s := max e (observedNext minIntervalMs next0 fins e)
    let f := s + d
    (s, f) :: rateLimitTraceAux minIntervalMs next0 (f :: fins) rest

def rateLimitTrace (minIntervalMs next0 : ℕ) (calls : List (ℕ × ℕ)) :
    List (ℕ × ℕ) :=
  rateLimitTraceAux minIntervalMs next0 [] calls

/-! ## Agent load model
(`initializeAgentInstances` lines 53-71, `processRequest` lines 186-195,
`completeRequest` lines 420-428, `updateAgentMetrics` lines 385-401)

The random draws `Math.random()` are modelled by an explicit parameter
`r ∈ [0,1)`. -/

/-- Dispatch load update (line 190):
`currentLoad = Math.min(100, currentLoad + Math.random() * 25 + 15)`. -/
def dispatchLoad (load r : ℚ) : ℚ :=
  min 100 (load + (r * 25 + 15))

/-- Completion load update (line 424):
`currentLoad = Math.max(5, currentLoad - (10 + Math.random() * 20))`. -/
def completeLoad (load r : ℚ) : ℚ :=
  max 5 (load - (10 + r * 20))

/-- Status recomputation on dispatch (line 191):
`status = currentLoad > 90 ? 'overloaded' : 'processing'`. -/
def dispatchStatus (load : ℚ) : String :=
  if load > 90 then "overloaded" else "processing"

/-- The `isScaling` flag persisted by `updateAgentMetrics` (line 398):
`isScaling: instance.currentLoad > 85` — a hardcoded 85 for every worker. -/
def updateAgentMetricsIsScaling (load : ℚ) : Bool :=
  load > 85

/-- The `instanceCount` persisted by `updateAgentMetrics` (line 399). -/
def updateAgentMetricsInstanceCount (load : ℚ) : ℕ :=
  if load > 85 then 2 else 1

/-- Per-worker load thresholds configured in `initializeAgentInstances`
(lines 56-58): credit 70, fraud 80, esg 60.  (These `threshold` fields
are never read anywhere else in `real-moe-system.ts`.) -/
def agentConfigThreshold (id : String) : Option ℕ :=
  if id = "credit-agent" then some 70
  else if id = "fraud-agent" then some 80
  else if id = "esg-agent" then some 60
  else none

/-! ## JSON values and a model of `JSON.parse`
(`parseMaybeJSON`, real-moe-system.ts lines 481-487, wraps `JSON.parse`
and returns `undefined` on failure.)

`JVal` is the type of JavaScript values produced by `JSON.parse`.  The
parser below follows the strict JSON grammar (RFC 8259, which is what
`JSON.parse` accepts): no comments, no trailing commas, no leading
zeros, `"` strings with the standard escapes.  `\uXXXX` escapes that
denote UTF-16 surrogates are mapped to U+FFFD (Lean `Char` holds unicode
scalar values only).  Numbers are exact rationals (JavaScript would
round to binary floating point; no claim depends on that rounding).
Duplicate object keys: last occurrence wins, as in JavaScript. -/

inductive JVal where
  | jnull
  | jbool (b : Bool)
  | jnum (q : ℚ)
  | jstr (s : String)
  | jarr (elems : List JVal)
  | jobj (fields : List (String × JVal))

def skipJWs (s : List Char) : List Char :=
  s.dropWhile (fun c => c = ' ' || c = '\t' || c = '\n' || c = '\r')

def hexVal : Char → Option ℕ
  | c =>
    if ('0' ≤ c) && (c ≤ '9') then some (c.toNat - '0'.toNat)
    else if ('a' ≤ c) && (c ≤ 'f') then some (c.toNat - 'a'.toNat + 10)
    else if ('A' ≤ c) && (c ≤ 'F') then some (c.toNat - 'A'.toNat + 10)
    else none

def parseJStringAux : List Char → List Char → Option (String × List Char)
  | acc, '"' :: rest => some (String.mk acc.reverse, rest)
  | acc, '\\' :: '"' :: rest => parseJStringAux ('"' :: acc) rest
  | acc, '\\' :: '\\' :: rest => parseJStringAux ('\\' :: acc) rest
  | acc, '\\' :: '/' :: rest => parseJStringAux ('/' :: acc) rest
  | acc, '\\' :: 'b' :: rest => parseJStringAux ('\x08' :: acc) rest
  | acc, '\\' :: 'f' :: rest => parseJStringAux ('\x0c' :: acc) rest
  | acc, '\\' :: 'n' :: rest => parseJStringAux ('\n' :: acc) rest
  | acc, '\\' :: 'r' :: rest => parseJStringAux ('\r' :: acc) rest
  | acc, '\\' :: 't' :: rest => parseJStringAux ('\t' :: acc) rest
  | acc, '\\' :: 'u' :: h1 :: h2 :: h3 :: h4 :: rest =>
    match hexVal h1, hexVal h2, hexVal h3, hexVal h4 with
    | some a, some b, some c, some d =>
      let code := ((a * 16 + b) * 16 + c) * 16 + d
      let ch := if 0xd800 ≤ code ∧ code ≤ 0xdfff then Char.ofNat 0xfffd
                else Char.ofNat code
      parseJStringAux (ch :: acc) rest
    | _, _, _, _ => none
  | _, '\\' :: _ => none
  | acc, c :: rest =>
    if c.toNat < 32 then none else parseJStringAux (c :: acc) rest
  | _, [] => none

def digitsToNat (ds : List Char) : ℕ :=
  ds.foldl (fun acc c => acc * 10 + (c.toNat - '0'.toNat)) 0

def parseJNumber (s : List Char) : Option (ℚ × List Char) :=
  let signRest : Bool × List Char :=
    match s with
    | '-' :: r => (true, r)
    | _ => (false, s)
  let neg := signRest.1
  let s1 := signRest.2
  let intSpan := s1.span isDigitChar
  let ids := intSpan.1
  let s2 := intSpan.2
  if ids.isEmpty then none
  else if 2 ≤ ids.length && ids.headD 'x' = '0' then none
  else
    let base : ℚ := (digitsToNat ids : ℚ)
    let withFrac : Option (ℚ × List Char) :=
      match s2 with
      | '.' :: r =>
        let fracSpan := r.span isDigitChar
        if fracSpan.1.isEmpty then none
        else some (base + (digitsToNat fracSpan.1 : ℚ) / (10 : ℚ) ^ fracSpan.1.length,
                   fracSpan.2)
      | _ => some (base, s2)
    match withFrac with
    | none => none
    | some (m, s3) =>
      let withExp : Option (ℚ × List Char) :=
        match s3 with
        | c :: r =>
          if c = 'e' || c = 'E' then
            let esignRest : ℤ × List Char :=
              match r with
              | '+' :: rr => (1, rr)
              | '-' :: rr => (-1, rr)
              | _ => (1, r)
            let expSpan := esignRest.2.span isDigitChar
            if expSpan.1.isEmpty then none
            else some (m * (10 : ℚ) ^ (esignRest.1 * (digitsToNat expSpan.1 : ℤ)),
                       expSpan.2)
          else some (m, s3)
        | [] => some (m, s3)
      match withExp with
      | none => none
      | some (v, s5) => some ((if neg then -v else v), s5)

/-- Object member list parser, parameterized by the value parser `pv`;
`fuel` bounds the number of members (each member consumes at least one
character, so `input length + 1` always suffices). -/
def parseJFieldsAux (pv : List Char → Option (JVal × List Char)) :
    ℕ → List Char → List (String × JVal) →
    Option (List (String × JVal) × List Char)
  | 0, _, _ => none
  | fuel + 1, s, acc =>
    match skipJWs s with
    | '"' :: r =>
      match parseJStringAux [] r with
      | none => none
      | some (key, r2) =>
        match skipJWs r2 with
        | ':' :: r3 =>
          match pv r3 with
          | none => none
          | some (v, r4) =>
            match skipJWs r4 with
            | ',' :: r5 => parseJFieldsAux pv fuel r5 ((key, v) :: acc)
            | '}' :: r5 => some (((key, v) :: acc).reverse, r5)
            | _ => none
        | _ => none
    | _ => none

/-- Array element list parser, parameterized like `parseJFieldsAux`. -/
def parseJElemsAux (pv : List Char → Option (JVal × List Char)) :
    ℕ → List Char → List JVal → Option (List JVal × List Char)
  | 0, _, _ => none
  | fuel + 1, s, acc =>
    match pv s with
    | none => none
    | some (v, r) =>
      match skipJWs r with
      | ',' :: r2 => parseJElemsAux pv fuel r2 (v :: acc)
      | ']' :: r2 => some ((v :: acc).reverse, r2)
      | _ => none

/-- JSON value parser; `depth` bounds the bracket nesting (each level
consumes a `{` or `[` first, so `input length + 1` always suffices). -/
def parseJValueAux : ℕ → List Char → Option (JVal × List Char)
  | 0, _ => none
  | depth + 1, s =>
    match skipJWs s with
    | '{' :: r =>
      match skipJWs r with
      | '}' :: r2 => some (.jobj [], r2)
      | _ =>
        match parseJFieldsAux (parseJValueAux depth) (r.length + 1) r [] with
        | some (fs, r2) => some (.jobj fs, r2)
        | none => none
    | '[' :: r =>
      match skipJWs r with
      | ']' :: r2 => some (.jarr [], r2)
      | _ =>
        match parseJElemsAux (parseJValueAux depth) (r.length + 1) r [] with
        | some (es, r2) => some (.jarr es, r2)
        | none => none
    | '"' :: r =>
      match parseJStringAux [] r with
      | some (str, r2) => some (.jstr str, r2)
      | none => none
    | 't' :: 'r' :: 'u' :: 'e' :: r => some (.jbool true, r)
    | 'f' :: 'a' :: 'l' :: 's' :: 'e' :: r => some (.jbool false, r)
    | 'n' :: 'u' :: 'l' :: 'l' :: r => some (.jnull, r)
    | s2 =>
      match parseJNumber s2 with
      | some (q, r) => some (.jnum q, r)
      | none => none

/-- Model of `parseMaybeJSON` (lines 481-487): `JSON.parse(s)` wrapped in
try/catch, `undefined` (here `none`) on any parse error; `JSON.parse`
requires the whole input (up to trailing whitespace) to be one value. -/
def parseMaybeJSON (text : String) : Option JVal :=
  match parseJValueAux (text.length + 1) text.data with
  | some (v, rest) => if (skipJWs rest).isEmpty then some v else none
  | none => none

/-! ## JavaScript dynamic-value helpers used by `computeFinalDecision` -/

/-- Property access `data.key` on a parse result: only objects have
(string-keyed) own properties; with duplicate JSON keys the last wins. -/
def getField (v : JVal) (key : String) : Option JVal :=
  match v with
  | .jobj fields =>
    match (fields.filter (fun kv => kv.1 = key)).getLast? with
    | some kv => some kv.2
    | none => none
  | _ => none

/-- The `a.k1 ?? a.k2 ?? ... ?? a.kn` chain: `??` skips a nullish left
operand, but the LAST operand is returned as-is — so when every earlier
key is absent or `null`, the result is the last key's value: `none`
(JavaScript `undefined`) if that key is absent, `some .jnull`
(JavaScript `null`) if it holds `null`.  The distinction matters in the
fraud block, whose `p === undefined` test is false for `null`. -/
def chainGet (v : JVal) : List String → Option JVal
  | [] => none
  | [k] => getField v k
  | k :: ks =>
    match getField v k with
    | some .jnull => chainGet v ks
    | some w => some w
    | none => chainGet v ks

/-- JavaScript truthiness of a `JSON.parse` result (`if (data) ...`,
`if (risk) ...`). -/
def truthy : JVal → Bool
  | .jnull => false
  | .jbool b => b
  | .jnum q => decide (q ≠ 0)
  | .jstr s => !s.isEmpty
  | .jarr _ => true
  | .jobj _ => true

/-- A JavaScript number: either a real value or `NaN`.  (Infinities are
collapsed into `nan` by the string conversion below — documented there.) -/
inductive JSNum where
  | nan
  | num (q : ℚ)
deriving DecidableEq, Repr

def jsTrim (s : List Char) : List Char :=
  ((s.dropWhile isJsSpace).reverse.dropWhile isJsSpace).reverse

/-- Model of `Number(string)`: trimmed empty string is `0`; otherwise a
signed decimal literal (digits, optional fraction, optional exponent);
anything else is `NaN`.  (JavaScript additionally accepts hex literals
and `Infinity`, which this model sends to `nan`; the code under
verification never produces such strings in its own right.) -/
def jsStringToNumber (s : String) : JSNum :=
  let t := jsTrim s.data
  if t.isEmpty then .num 0
  else
    let signRest : ℚ × List Char :=
      match t with
      | '+' :: r => (1, r)
      | '-' :: r => (-1, r)
      | _ => (1, t)
    let sign := signRest.1
    let intSpan := signRest.2.span isDigitChar
    let ids := intSpan.1
    let t2 := intSpan.2
    let mOpt : Option (ℚ × List Char) :=
      match t2 with
      | '.' :: r =>
        let fracSpan := r.span isDigitChar
        if ids.isEmpty && fracSpan.1.isEmpty then none
        else some ((digitsToNat ids : ℚ) +
                     (digitsToNat fracSpan.1 : ℚ) / (10 : ℚ) ^ fracSpan.1.length,
                   fracSpan.2)
      | _ => if ids.isEmpty then none else some ((digitsToNat ids : ℚ), t2)
    match mOpt with
    | none => .nan
    | some (m, t3) =>
      match t3 with
      | [] => .num (sign * m)
      | c :: r =>
        if c = 'e' || c = 'E' then
          let esignRest : ℤ × List Char :=
            match r with
            | '+' :: rr => (1, rr)
            | '-' :: rr => (-1, rr)
            | _ => (1, r)
          let expSpan := esignRest.2.span isDigitChar
          if expSpan.1.isEmpty || !expSpan.2.isEmpty then .nan
          else .num (sign * m * (10 : ℚ) ^ (esignRest.1 * (digitsToNat expSpan.1 : ℤ)))
        else .nan

/-- Rendering of a rational inside a template string, modelling
JavaScript's number-to-string conversion: integers exactly; a
non-integer whose (reduced) denominator divides a power of ten is
printed as its exact terminating decimal with no trailing zeros — which
is JavaScript's output whenever the binary float round-trips that
decimal (float rounding itself is outside this model); any other
denominator (unreachable from JSON decimal literals up to 63 fractional
digits) falls back to a `num/den` rendering. -/
def qToString (q : ℚ) : String :=
  if q.den = 1 then toString q.num
  else
    match (List.range 64).find? (fun k => (10 : ℕ) ^ k % q.den = 0) with
    | some k =>
      let sign := if q.num < 0 then "-" else ""
      let scaled := q.num.natAbs * 10 ^ k / q.den
      let ip := scaled / 10 ^ k
      let fp := scaled % 10 ^ k
      let fpStr := toString fp
      sign ++ toString ip ++ "." ++
        String.mk (List.replicate (k - fpStr.length) '0') ++ fpStr
    | none => toString q.num ++ "/" ++ toString q.den

/-- `String(v)` for a `JSON.parse` value, with fuel for nested arrays
(arrays join their elements with `,`, `null` elements become empty). -/
def jsToStringFuel : ℕ → JVal → String
  | _, .jnull => "null"
  | _, .jbool b => if b then "true" else "false"
  | _, .jnum q => qToString q
  | _, .jstr s => s
  | 0, .jarr _ => ""
  | fuel + 1, .jarr xs =>
    String.intercalate ","
      (xs.map (fun v =>
        match v with
        | .jnull => ""
        | w => jsToStringFuel fuel w))
  | _, .jobj _ => "[object Object]"

/-- `ToNumber` of a `JSON.parse` value: primitives convert directly
(`null` is 0, booleans are 0/1, strings via `Number(string)`); arrays
and objects convert through their string form (`ToPrimitive` with no
own `valueOf` result falls back to `toString`), so `Number([]) = 0`,
`Number([x])` is the number read from `String([x])`, and
`Number([a,b,...])` and `Number({})` are `NaN`.  The fuel bounds array
nesting in the string conversion. -/
def jsToNumberFuel (fuel : ℕ) : JVal → JSNum
  | .jnull => .num 0
  | .jbool b => .num (if b then 1 else 0)
  | .jnum q => .num q
  | .jstr s => jsStringToNumber s
  | .jarr xs => jsStringToNumber (jsToStringFuel fuel (.jarr xs))
  | .jobj fields => jsStringToNumber (jsToStringFuel fuel (.jobj fields))

/-- `fraudProb > 1` (NaN comparisons are false). -/
def jsGtOne : JSNum → Bool
  | .nan => false
  | .num q => decide (q > 1)

/-- `p / 100`. -/
def jsDiv100 : JSNum → JSNum
  | .nan => .nan
  | .num q => .num (q / 100)

/-- `v >= c` (NaN comparisons are false). -/
def jsGe (v : JSNum) (c : ℚ) : Bool :=
  match v with
  | .nan => false
  | .num q => decide (q ≥ c)

/-- `` `${Math.round(v * 100)}` `` — `Math.round(x) = ⌊x + 1/2⌋` for real
values, and `NaN` stringifies to `"NaN"`. -/
def jsRound100Str : JSNum → String
  | .nan => "NaN"
  | .num q => toString (Int.floor (q * 100 + 1 / 2))

/-! ## The five regular expressions of `computeFinalDecision`

Each JavaScript pattern is embedded as a dedicated matching function
whose search order mirrors the regex engine: leftmost match position
first, with the documented backtracking behaviour at each position.
The two decision-override patterns (lines 545 and 548) have no `i` flag
but are applied to the already-lowercased `joined` text; the three
extraction patterns (lines 503, 519, 523) carry the `i` flag and are
applied to the raw analysis text. -/

def stripLit : List Char → List Char → Option (List Char)
  | [], s => some s
  | _ :: _, [] => none
  | c :: cs, d :: ds => if c = d then stripLit cs ds else none

/-- Case-insensitive literal strip; the literal is given lowercase. -/
def stripLitCI : List Char → List Char → Option (List Char)
  | [], s => some s
  | _ :: _, [] => none
  | c :: cs, d :: ds => if c = d.toLower then stripLitCI cs ds else none

def headIsWord : List Char → Bool
  | c :: _ => isWordChar c
  | [] => false

def prevIsWord : Option Char → Bool
  | some c => isWordChar c
  | none => false

/-- `\b` between the previous character and the current position. -/
def boundaryAt (prev : Option Char) (s : List Char) : Bool :=
  prevIsWord prev != headIsWord s

/-- `\bapprove(d)?\b` anchored at this position: `approve` with a
non-word character (or string edge) before it, and after it either a
greedy `d` followed by a boundary, or a boundary directly (if the next
character is a `d` that cannot complete a boundary, both options fail,
exactly as in the regex). -/
def approveAt (prev : Option Char) (s : List Char) : Bool :=
  match stripLit "approve".data s with
  | none => false
  | some rest =>
    !prevIsWord prev &&
    (match rest with
     | 'd' :: r2 => !headIsWord r2
     | r => !headIsWord r)

/-- Search for `\bapprove(d)?\b` reachable through `[^\n]*`: positions
are advanced only across non-newline characters. -/
def approveSearch : Option Char → List Char → Bool
  | prev, [] => approveAt prev []
  | prev, c :: rest =>
    approveAt prev (c :: rest) ||
    (if c = '\n' then false else approveSearch (some c) rest)

/-- `\bdecline(d)?` anchored at this position — note the source pattern
(line 548) puts no `\b` after `decline(d)?`, so the bare literal with a
word boundary before it suffices. -/
def declineAt (prev : Option Char) (s : List Char) : Bool :=
  match stripLit "decline".data s with
  | none => false
  | some _ => !prevIsWord prev

def declineSearch : Option Char → List Char → Bool
  | prev, [] => declineAt prev []
  | prev, c :: rest =>
    declineAt prev (c :: rest) ||
    (if c = '\n' then false else declineSearch (some c) rest)

/-- `reject(ed)?\b` anchored at this position — note the source pattern
(line 548) puts the alternation bar before `reject`, so this branch has
no leading `\b` and no preceding `decision` requirement. -/
def rejectAt (s : List Char) : Bool :=
  match stripLit "reject".data s with
  | none => false
  | some rest =>
    match rest with
    | 'e' :: 'd' :: r2 => !headIsWord r2
    | r => !headIsWord r

/-- `\b(final|overall)?\s*decision\b` anchored at this position; returns
the remainder after `decision` on a match.  The three prefix branches
start with distinct characters, so at most one applies. -/
def decisionPreAt (prev : Option Char) (s : List Char) : Option (List Char) :=
  if !boundaryAt prev s then none
  else
    let afterPre : List Char :=
      match stripLit "final".data s with
      | some r => r
      | none =>
        match stripLit "overall".data s with
        | some r => r
        | none => s
    let r2 := afterPre.dropWhile isJsSpace
    match stripLit "decision".data r2 with
    | some r3 => if headIsWord r3 then none else some r3
    | none => none

/-- `\b(final|overall)?\s*decision\b[^\n]*\bapprove(d)?\b` at this
position (the character before the tail search is the `n` of
`decision`). -/
def decisionApproveAt (prev : Option Char) (s : List Char) : Bool :=
  match decisionPreAt prev s with
  | some r3 => approveSearch (some 'n') r3
  | none => false

/-- `\b(final|overall)?\s*decision\b[^\n]*\bdecline(d)?` at this
position. -/
def decisionDeclineAt (prev : Option Char) (s : List Char) : Bool :=
  match decisionPreAt prev s with
  | some r3 => declineSearch (some 'n') r3
  | none => false

/-- Try a position predicate at every position of the string, tracking
the previous character (for `\b`). -/
def scanPositions (f : Option Char → List Char → Bool) :
    Option Char → List Char → Bool
  | prev, [] => f prev []
  | prev, c :: rest => f prev (c :: rest) || scanPositions f (some c) rest

/-- `.test` of `/\b(final|overall)?\s*decision\b[^\n]*\bapprove(d)?\b/`
(line 545). -/
def approveStmtMatch (s : List Char) : Bool :=
  scanPositions decisionApproveAt none s

/-- `.test` of `/\b(final|overall)?\s*decision\b[^\n]*\bdecline(d)?|reject(ed)?\b/`
(line 548) — a top-level alternation of the two branches above. -/
def declineStmtMatch (s : List Char) : Bool :=
  scanPositions (fun p t => decisionDeclineAt p t || rejectAt t) none s

/-- First position (leftmost) where an extractor matches. -/
def scanFirstAux {α : Type} (f : List Char → Option α) : List Char → Option α
  | [] => f []
  | c :: rest =>
    match f (c :: rest) with
    | some v => some v
    | none => scanFirstAux f rest

/-- Skip at most `maxN` non-digit characters, stopping at the first
digit (`[^\d]{0,n}` followed by a mandatory digit: the only viable skip
length is the distance to the first digit). -/
def skipNonDigits : ℕ → List Char → Option (List Char)
  | _, [] => none
  | maxN, c :: rest =>
    if isDigitChar c then some (c :: rest)
    else
      match maxN with
      | 0 => none
      | m + 1 => skipNonDigits m rest

/-- `(\d{1,3})(?:\.(\d+))?%` anchored at a digit run: the whole leading
digit run must be 1-3 digits long (a longer run can never reach `%`
under backtracking) and be followed by `%`, or by `.`, a digit run and
`%`; the value is `Number(intDigits.fracDigits)`. -/
def fraudNumAt (s : List Char) : Option ℚ :=
  let intSpan := s.span isDigitChar
  if intSpan.1.isEmpty || 4 ≤ intSpan.1.length then none
  else
    match intSpan.2 with
    | '%' :: _ => some (digitsToNat intSpan.1 : ℚ)
    | '.' :: r2 =>
      let fracSpan := r2.span isDigitChar
      if fracSpan.1.isEmpty then none
      else
        match fracSpan.2 with
        | '%' :: _ => some ((digitsToNat intSpan.1 : ℚ) +
            (digitsToNat fracSpan.1 : ℚ) / (10 : ℚ) ^ fracSpan.1.length)
        | _ => none
    | _ => none

/-- `(fraud[^\d]{0,10}|probab)[^\d]{0,10}(\d{1,3})(?:\.(\d+))?%` with the
`i` flag (line 503), anchored at this position: after `fraud` up to 20
non-digits may be skipped (two `{0,10}` runs), after `probab` up to 10. -/
def fraudAt (s : List Char) : Option ℚ :=
  let viaFraud : Option ℚ :=
    match stripLitCI "fraud".data s with
    | some r =>
      match skipNonDigits 20 r with
      | some r2 => fraudNumAt r2
      | none => none
    | none => none
  match viaFraud with
  | some q => some q
  | none =>
    match stripLitCI "probab".data s with
    | some r =>
      match skipNonDigits 10 r with
      | some r2 => fraudNumAt r2
      | none => none
    | none => none

def findFraudPct (s : List Char) : Option ℚ :=
  scanFirstAux fraudAt s

/-- `[:\-]?` -/
def skipColonDash : List Char → List Char
  | ':' :: r => r
  | '-' :: r => r
  | s => s

/-- `risk\s*level\s*[:\-]?\s*(low|medium|high)` with the `i` flag
(line 519), anchored at this position; the capture keeps the original
case of the matched alternative. -/
def riskAt (s : List Char) : Option String :=
  match stripLitCI "risk".data s with
  | none => none
  | some r1 =>
    match stripLitCI "level".data (r1.dropWhile isJsSpace) with
    | none => none
    | some r3 =>
      let r5 := (skipColonDash (r3.dropWhile isJsSpace)).dropWhile isJsSpace
      match stripLitCI "low".data r5 with
      | some _ => some (String.mk (r5.take 3))
      | none =>
        match stripLitCI "medium".data r5 with
        | some _ => some (String.mk (r5.take 6))
        | none =>
          match stripLitCI "high".data r5 with
          | some _ => some (String.mk (r5.take 4))
          | none => none

def findRiskLevel (s : List Char) : Option String :=
  scanFirstAux riskAt s

/-- `credit\s*score\s*[:\-]?\s*(\d{3})` with the `i` flag (line 523),
anchored at this position. -/
def scoreAt (s : List Char) : Option ℕ :=
  match stripLitCI "credit".data s with
  | none => none
  | some r1 =>
    match stripLitCI "score".data (r1.dropWhile isJsSpace) with
    | none => none
    | some r3 =>
      let r5 := (skipColonDash (r3.dropWhile isJsSpace)).dropWhile isJsSpace
      match r5 with
      | a :: b :: c :: _ =>
        if isDigitChar a && isDigitChar b && isDigitChar c then
          some (digitsToNat [a, b, c])
        else none
      | _ => none

def findCreditScore (s : List Char) : Option ℕ :=
  scanFirstAux scoreAt s

/-- `.test` of `/a|b|pass|good|positive/i` on the ESG rating (line 537):
an alternation of plain literals, i.e. case-insensitive containment of
any of them. -/
def esgRatingPositive (rating : String) : Bool :=
  let t := jsLower rating
  containsSub t "a" || containsSub t "b" || containsSub t "pass" ||
  containsSub t "good" || containsSub t "positive"

/-- `.test` of `/high/i` on `creditRisk` (line 554). -/
def containsHighCI (s : String) : Bool :=
  containsSub (jsLower s) "high"

/-! ## The aggregator (`computeFinalDecision`, lines 473-576) -/

/-- A worker result as consumed by `computeFinalDecision` (typed `any[]`
in the source): the `agentType` field when it is a string (`none` for
absent or non-string), and the `analysis` field as a JavaScript value
(`none` = absent/`undefined`). -/
structure AgentResult where
  agentType : Option String
  analysis : Option JVal

/-- `const text = typeof r?.analysis === 'string' ? r.analysis : ''`
(line 490). -/
def resultText (r : AgentResult) : String :=
  match r.analysis with
  | some (.jstr s) => s
  | _ => ""

/-- The `texts` accumulator: `if (text) texts.push(text)` (line 491). -/
def collectTexts (results : List AgentResult) : List String :=
  (results.map resultText).filter (fun t => !t.isEmpty)

/-- `const data = text ? parseMaybeJSON(text) : undefined` (line 493). -/
def resultData (r : AgentResult) : Option JVal :=
  let t := resultText r
  if t.isEmpty then none else parseMaybeJSON t

/-- The signal variables threaded through the extraction loop of
`computeFinalDecision` (lines 474-477): `fraudProb` (stored normalized,
as at line 507), `creditRisk`, `creditScore`, `esgOk`. -/
structure Signals where
  fraudProb : Option JSNum
  creditRisk : Option String
  creditScore : Option ℚ
  esgOk : Option Bool
deriving DecidableEq, Repr

def noSignals : Signals := ⟨none, none, none, none⟩

/-- The `agentType === 'fraud'` block (lines 496-509).  The regex
fallback is gated on `p === undefined`, which is FALSE when the `??`
chain produced `null` (`pRaw = some .jnull`): then the fallback is
skipped, `p !== undefined` holds, `null > 1` is false (`ToNumber(null)`
is 0) and `fraudProb` becomes the numeric value 0 — later rendered as
`Fraud probability 0%`.  All uses of `p`/`fraudProb` downstream of the
assignment are numeric, so the value is stored as its `ToNumber` image. -/
def fraudStep (sig : Signals) (r : AgentResult) : Signals :=
  let text := resultText r
  let dataOpt := resultData r
  let dataOk : Bool :=
    match dataOpt with
    | some v => truthy v
    | none => false
  let pRaw : Option JVal :=
    if dataOk then
      match dataOpt with
      | some v => chainGet v ["fraud_probability", "fraudProbability", "probability"]
      | none => none
    else none
  let p : Option JSNum :=
    match pRaw with
    | some v => some (jsToNumberFuel (text.length + 1) v)
    | none =>
      match findFraudPct text.data with
      | some q => some (.num q)
      | none => none
  match p with
  | none => sig
  | some v =>
    { sig with fraudProb := some (if jsGtOne v then jsDiv100 v else v) }

/-- The `agentType === 'credit'` block (lines 511-526). -/
def creditStep (sig : Signals) (r : AgentResult) : Signals :=
  let text := resultText r
  let dataOpt := resultData r
  let dataOk : Bool :=
    match dataOpt with
    | some v => truthy v
    | none => false
  let riskVal : Option JVal :=
    if dataOk then
      match dataOpt with
      | some v => chainGet v ["risk_level", "riskLevel", "risk"]
      | none => none
    else none
  let creditRisk1 : Option String :=
    match riskVal with
    | some v =>
      if truthy v then some (jsToStringFuel (text.length + 1) v) else sig.creditRisk
    | none => sig.creditRisk
  let scoreVal : Option JVal :=
    if dataOk then
      match dataOpt with
      | some v => chainGet v ["credit_score", "creditScore", "score"]
      | none => none
    else none
  let creditScore1 : Option ℚ :=
    match scoreVal with
    | some (.jnum q) => some q
    | _ => sig.creditScore
  let riskFalsy : Bool :=
    match creditRisk1 with
    | none => true
    | some s => s.isEmpty
  let creditRisk2 : Option String :=
    if riskFalsy then
      match findRiskLevel text.data with
      | some cap => some cap
      | none => creditRisk1
    else creditRisk1
  let creditScore2 : Option ℚ :=
    match creditScore1 with
    | some q => some q
    | none =>
      match findCreditScore text.data with
      | some n => some (n : ℚ)
      | none => none
  { sig with creditRisk := creditRisk2, creditScore := creditScore2 }

/-- The `agentType === 'esg'` block (lines 528-540). -/
def esgStep (sig : Signals) (r : AgentResult) : Signals :=
  let dataOpt := resultData r
  let dataOk : Bool :=
    match dataOpt with
    | some v => truthy v
    | none => false
  if !dataOk then sig
  else
    match dataOpt with
    | none => sig
    | some v =>
      let e := chainGet v ["environmental_score", "environmentalScore"]
      let s := chainGet v ["social_score", "socialScore"]
      let g := chainGet v ["governance_score", "governanceScore"]
      let rating := chainGet v ["overall_rating", "overallRating", "overall"]
      match e, s, g with
      | some (.jnum qe), some (.jnum qs), some (.jnum qg) =>
        { sig with esgOk := some (decide ((qe + qs + qg) / 3 ≥ 50)) }
      | _, _, _ =>
        match rating with
        | some (.jstr rs) => { sig with esgOk := some (esgRatingPositive rs) }
        | _ => sig

/-- One iteration of the `for (const r of agentResults)` loop: the three
specialization blocks run in sequence; at most one fires per result. -/
def signalStep (sig : Signals) (r : AgentResult) : Signals :=
  let sig1 := if r.agentType = some "fraud" then fraudStep sig r else sig
  let sig2 := if r.agentType = some "credit" then creditStep sig1 r else sig1
  if r.agentType = some "esg" then esgStep sig2 r else sig2

def extractSignals (results : List AgentResult) : Signals :=
  results.foldl signalStep noSignals

inductive DecisionStatus where
  | Approved
  | Declined
deriving DecidableEq, Repr

structure Decision where
  status : DecisionStatus
  rationale : String
deriving DecidableEq, Repr

/-- `const joined = texts.join(' \n ').toLowerCase()` (line 544). -/
def joinedLowerTexts (results : List AgentResult) : List Char :=
  (jsLower (String.intercalate " \n " (collectTexts results))).data

/-- `fraudProb !== undefined && fraudProb >= 0.6` (line 553). -/
def highFraudB (sig : Signals) : Bool :=
  match sig.fraudProb with
  | some v => jsGe v (6 / 10)
  | none => false

/-- `typeof creditRisk === 'string' && /high/i.test(creditRisk)` (line 554). -/
def highRiskB (sig : Signals) : Bool :=
  match sig.creditRisk with
  | some s => containsHighCI s
  | none => false

/-- `typeof creditScore === 'number' && creditScore < 600` (line 555). -/
def lowScoreB (sig : Signals) : Bool :=
  match sig.creditScore with
  | some q => decide (q < 600)
  | none => false

/-- `esgOk === false` (line 556). -/
def poorESGB (sig : Signals) : Bool :=
  sig.esgOk == some false

def catOptions (xs : List (Option String)) : List String :=
  xs.filterMap id

/-- Rationale of the `Declined` heuristic branch (lines 559-565). -/
def declinedRationale (sig : Signals) : String :=
  let reasons := String.intercalate "; " (catOptions [
    (if highFraudB sig then
       sig.fraudProb.map (fun v => "Fraud probability " ++ jsRound100Str v ++ "%")
     else none),
    (if highRiskB sig then
       sig.creditRisk.map (fun s => "Credit risk " ++ s)
     else none),
    (if lowScoreB sig then
       sig.creditScore.map (fun q => "Credit score " ++ qToString q)
     else none),
    (if poorESGB sig then some "ESG concerns" else none)])
  if reasons.isEmpty then "Risk thresholds not met." else reasons

/-- Rationale of the `Approved` heuristic branch (lines 568-575); note
`creditRisk ?` is a truthiness test, so an empty risk string is
omitted. -/
def approvedRationale (sig : Signals) : String :=
  let reasons := String.intercalate "; " (catOptions [
    sig.fraudProb.map (fun v => "Fraud probability " ++ jsRound100Str v ++ "%"),
    (match sig.creditRisk with
     | some s => if s.isEmpty then none else some ("Credit risk " ++ s)
     | none => none),
    sig.creditScore.map (fun q => "Credit score " ++ qToString q),
    (if sig.esgOk == some true then some "ESG acceptable" else none)])
  if reasons.isEmpty then "Heuristics indicate acceptable risk." else reasons

/-- The heuristic tail of `computeFinalDecision` (lines 552-575). -/
def decideByHeuristics (sig : Signals) : Decision :=
  if highFraudB sig || highRiskB sig || lowScoreB sig then
    ⟨.Declined, declinedRationale sig⟩
  else
    ⟨.Approved, approvedRationale sig⟩

/-- `computeFinalDecision` (lines 473-576): extract signals, then the
keyword overrides (approval tested first), then the heuristics. -/
def computeFinalDecision (results : List AgentResult) : Decision :=
  let sig := extractSignals results
  let joined := joinedLowerTexts results
  if approveStmtMatch joined then
    ⟨.Approved, "Explicit approval found in agent outputs."⟩
  else if declineStmtMatch joined then
    ⟨.Declined, "Explicit decline/reject found in agent outputs."⟩
  else
    decideByHeuristics sig

/-! ## Lifecycle settle handling
(`processRequest` lines 197-252 and `completeRequest` lines 409-417) -/

structure LifecycleOutcome where
  requestStatus : String
  aggregationInput : List AgentResult
  errorLogMessages : List String
  finalDecision : Decision

/-- Model of the fan-in: `Promise.allSettled` over the per-worker
executions, keeping only fulfilled values for aggregation (lines
200-205), one error log entry per rejected execution (lines 224-236),
and — in the `finally` block — `completeRequest`, which always sets the
request status to `'completed'` (line 415) and computes the final
decision from the fulfilled results (line 449). -/
def processSettled (settled : List (Except String AgentResult)) :
    LifecycleOutcome :=
  let fulfilled := settled.filterMap (fun o =>
    match o with
    | .ok v => some v
    | .error _ => none)
  let errLogs := settled.filterMap (fun o =>
    match o with
    | .ok _ => none
    | .error m => some ("Agent processing failed: " ++ m))
  { requestStatus := "completed"
    aggregationInput := fulfilled
    errorLogMessages := errLogs
    finalDecision := computeFinalDecision fulfilled }

/-! ## Helper lemmas -/

theorem length_filterMap_errors (l : List (Except String AgentResult)) :
    (l.filterMap (fun o =>
      match o with
      | .ok _ => none
      | .error m => some ("Agent processing failed: " ++ m))).length =
    (l.filter (fun o =>
      match o with
      | .ok _ => false
      | .error _ => true)).length := by
  induction l with
  | nil => rfl
  | cons hd tl ih =>
    cases hd with
    | ok v => simpa [List.filterMap, List.filter] using ih
    | error m => simpa [List.filterMap, List.filter] using ih

theorem runSeq_head_ge (m : ℕ) (calls : List (ℕ × ℕ)) (next s : ℕ)
    (h : (runSeq m next calls).head? = some s) : next ≤ s := by
  cases calls with
  | nil => simp [runSeq] at h
  | cons cd rest =>
    cases cd with
    | mk e d =>
      simp only [runSeq, List.head?_cons, Option.some.injEq] at h
      subst h
      exact le_max_right e next

theorem runSeq_chain (m : ℕ) (calls : List (ℕ × ℕ)) (next : ℕ) :
    List.Chain' (fun s1 s2 => s1 + m ≤ s2) (runSeq m next calls) := by
  induction calls generalizing next with
  | nil => simp [runSeq]
  | cons cd rest ih =>
    cases cd with
    | mk e d =>
      rw [runSeq]
      refine List.chain'_cons'.2 ⟨?_, ih _⟩
      intro b hb
      have hge := runSeq_head_ge m rest (max e next + d + m) b hb
      omega

theorem highFraudB_iff (sig : Signals) :
    highFraudB sig = true ↔
      ∃ q : ℚ, sig.fraudProb = some (.num q) ∧ 6 / 10 ≤ q := by
  cases h : sig.fraudProb with
  | none => simp [highFraudB, h]
  | some v =>
    cases v with
    | nan => simp [highFraudB, h, jsGe]
    | num q => simp [highFraudB, h, jsGe, ge_iff_le]

theorem highRiskB_iff (sig : Signals) :
    highRiskB sig = true ↔
      ∃ rs : String, sig.creditRisk = some rs ∧ containsHighCI rs = true := by
  cases h : sig.creditRisk with
  | none => simp [highRiskB, h]
  | some rs => simp [highRiskB, h]

theorem lowScoreB_iff (sig : Signals) :
    lowScoreB sig = true ↔
      ∃ q : ℚ, sig.creditScore = some q ∧ q < 600 := by
  cases h : sig.creditScore with
  | none => simp [lowScoreB, h]
  | some q => simp [lowScoreB, h]

/-! ## Claim theorems -/

/-- C1, counterexample: the claim says a provider rate-limit signal with
retry-after = 20 s makes the next permitted call time at least
`now + 20000` even when `minIntervalMs` is smaller.  In the code the
catch branch of `withRateLimit` (lines 588-591) sets
`nextAllowedAt = Date.now() + this.minIntervalMs` without reading any
retry-after information: with `minIntervalMs = 1000`, `nextAllowedAt = 0`,
entry at `now = 0` and an instantaneous 429 carrying retry-after 20, the
new `nextAllowedAt` is 1000, not ≥ 20000. -/
theorem C1_counterexample :
    (withRateLimitCall 1000 0 0 (.failure 0 (some 20))).nextAllowedAt = 1000 ∧
    ¬ (20 * 1000 ≤ (withRateLimitCall 1000 0 0 (.failure 0 (some 20))).nextAllowedAt) ∧
    (withRateLimitCall 1000 0 0 (.failure 0 (some 20))).raised = true := by
  refine ⟨rfl, by decide, rfl⟩

/-- C1, amended: on ANY runner error — rate-limit signal or not, whatever
retry-after hint it carries — `withRateLimit` re-raises the error and
advances `nextAllowedAt` to the settle time plus `minIntervalMs`; the
retry-after hint is ignored entirely. -/
theorem C1_rate_limit_error_advances_by_min_interval
    (m next now d : ℕ) (hint : Option ℕ) :
    withRateLimitCall m next now (.failure d hint) =
      ⟨max now next, max now next + d + m, true⟩ := rfl

/-- C2: for every non-empty list of settled worker executions, the
request status becomes `completed` (never `failed`), exactly the
fulfilled results are passed to aggregation, and there is exactly one
error log entry per rejected execution. -/
theorem C2_settle_all_completes (settled : List (Except String AgentResult))
    (hne : settled ≠ []) :
    (processSettled settled).requestStatus = "completed" ∧
    (processSettled settled).requestStatus ≠ "failed" ∧
    (processSettled settled).aggregationInput =
      settled.filterMap (fun o =>
        match o with
        | .ok v => some v
        | .error _ => none) ∧
    (processSettled settled).errorLogMessages.length =
      (settled.filter (fun o =>
        match o with
        | .ok _ => false
        | .error _ => true)).length := by
  refine ⟨rfl, ?_, rfl, ?_⟩
  · rw [show (processSettled settled).requestStatus = "completed" from rfl]
    decide
  · exact length_filterMap_errors settled

/-- C2 witness: two assigned workers, both rejecting — the request still
completes and two error entries are recorded (one per rejection). -/
theorem C2_witness :
    (processSettled [.error "w1 down", .error "w2 down"]).requestStatus = "completed" ∧
    (processSettled [.error "w1 down", .error "w2 down"]).errorLogMessages.length = 2 := by
  have h := C2_settle_all_completes [.error "w1 down", .error "w2 down"] (by simp)
  exact ⟨h.1, h.2.2.2.trans (by rfl)⟩

/-- C3, counterexample: the claim says any two consecutive Inference
Client calls start at least `minIntervalMs` apart.  `nextAllowedAt` is
read once at entry (line 580) and written only when the runner settles
(lines 586/589), so two calls entering while neither has settled both
observe the initial value: with `minIntervalMs = 15000` and calls
entering at t=0 (running 100 ms) and t=1, the starts are 0 and 1 —
1 ms apart, far less than 15000. -/
theorem C3_counterexample :
    (rateLimitTrace 15000 0 [(0, 100), (1, 50)]).map Prod.fst = [0, 1] ∧
    (1 : ℕ) < 0 + 15000 := by
  refine ⟨rfl, by decide⟩

/-- C3, amended: when calls are serialized — each call enters after the
previous one has settled and written `nextAllowedAt`, which is how
`runSeq` threads the state — consecutive call starts are at least
`minIntervalMs` apart, and no call starts before the `nextAllowedAt` it
observes at entry (`nextAllowedAt` itself only ever moves forward, since
each settle writes settle-time + `minIntervalMs`). -/
theorem C3_serialized_spacing (m next : ℕ) (calls : List (ℕ × ℕ)) :
    List.Chain' (fun s1 s2 => s1 + m ≤ s2) (runSeq m next calls) ∧
    ∀ s : ℕ, (runSeq m next calls).head? = some s → next ≤ s := by
  exact ⟨runSeq_chain m calls next, fun s h => runSeq_head_ge m calls next s h⟩

/-- C3 witness: three serialized calls under the default 15000 ms
interval start 15000+ ms apart, and the first starts no earlier than the
observed `nextAllowedAt`. -/
theorem C3_witness :
    List.Chain' (fun s1 s2 => s1 + 15000 ≤ s2)
      (runSeq 15000 200 [(0, 100), (0, 50), (0, 10)]) ∧
    (200 : ℕ) ≤ 200 := by
  refine ⟨(C3_serialized_spacing 15000 200 [(0, 100), (0, 50), (0, 10)]).1, ?_⟩
  exact (C3_serialized_spacing 15000 200 [(0, 100), (0, 50), (0, 10)]).2 200 rfl

/-- C4: `fallbackRouting` is a pure function of the request-type text:
lowercased text containing `loan`/`credit` routes to the credit worker;
otherwise `fraud`/`claim` to the fraud worker; otherwise
`esg`/`investment` to the esg worker; otherwise to credit and fraud
together; and identical input text yields an identical selection. -/
theorem C4_fallback_routing_cases (s t : String) :
    ((containsSub (jsLower s) "loan" || containsSub (jsLower s) "credit") = true →
      fallbackRouting s = ["credit-agent"]) ∧
    ((containsSub (jsLower s) "loan" || containsSub (jsLower s) "credit") = false →
     (containsSub (jsLower s) "fraud" || containsSub (jsLower s) "claim") = true →
      fallbackRouting s = ["fraud-agent"]) ∧
    ((containsSub (jsLower s) "loan" || containsSub (jsLower s) "credit") = false →
     (containsSub (jsLower s) "fraud" || containsSub (jsLower s) "claim") = false →
     (containsSub (jsLower s) "esg" || containsSub (jsLower s) "investment") = true →
      fallbackRouting s = ["esg-agent"]) ∧
    ((containsSub (jsLower s) "loan" || containsSub (jsLower s) "credit") = false →
     (containsSub (jsLower s) "fraud" || containsSub (jsLower s) "claim") = false →
     (containsSub (jsLower s) "esg" || containsSub (jsLower s) "investment") = false →
      fallbackRouting s = ["credit-agent", "fraud-agent"]) ∧
    (s = t → fallbackRouting s = fallbackRouting t) := by
  refine ⟨?_, ?_, ?_, ?_, ?_⟩
  · intro h1
    simp [fallbackRouting, h1]
  · intro h1 h2
    simp [fallbackRouting, h1, h2]
  · intro h1 h2 h3
    simp [fallbackRouting, h1, h2, h3]
  · intro h1 h2 h3
    simp [fallbackRouting, h1, h2, h3]
  · intro h
    rw [h]

/-- C4 witness: a loan-typed request routes to the credit worker, an
unmatched type routes to both default workers. -/
theorem C4_witness :
    fallbackRouting "Loan Application" = ["credit-agent"] ∧
    fallbackRouting "Mortgage Refinance" = ["credit-agent", "fraud-agent"] := by
  refine ⟨(C4_fallback_routing_cases "Loan Application" "x").1 (by decide), ?_⟩
  exact (C4_fallback_routing_cases "Mortgage Refinance" "x").2.2.2.1
    (by decide) (by decide) (by decide)

/-- C5: an explicit decision statement in the concatenated analysis
texts is honored ahead of every numeric heuristic — the theorem holds
for every result list, i.e. for every combination of extracted signals:
if the approval pattern matches, the verdict is `Approved`; if it does
not and the decline/reject pattern matches, the verdict is `Declined`. -/
theorem C5_explicit_decision_precedence (results : List AgentResult) :
    (approveStmtMatch (joinedLowerTexts results) = true →
      computeFinalDecision results =
        ⟨.Approved, "Explicit approval found in agent outputs."⟩) ∧
    (approveStmtMatch (joinedLowerTexts results) = false →
     declineStmtMatch (joinedLowerTexts results) = true →
      computeFinalDecision results =
        ⟨.Declined, "Explicit decline/reject found in agent outputs."⟩) := by
  constructor
  · intro h
    simp [computeFinalDecision, h]
  · intro h1 h2
    simp [computeFinalDecision, h1, h2]

/-- C5 witness: an explicit `Decision: APPROVED` wins although the same
text carries a fraud probability of 90% (≥ 0.6, which the heuristics
alone would decline). -/
theorem C5_witness :
    computeFinalDecision
      [⟨some "fraud", some (.jstr "Decision: APPROVED. fraud probability 90%")⟩] =
      ⟨.Approved, "Explicit approval found in agent outputs."⟩ ∧
    highFraudB (extractSignals
      [⟨some "fraud", some (.jstr "Decision: APPROVED. fraud probability 90%")⟩]) = true := by
  constructor
  · exact (C5_explicit_decision_precedence _).1 (by decide)
  · with_unfolding_all decide

/-- C6: with no explicit decision statement present, the verdict is
`Declined` exactly when the extracted fraud probability (stored already
normalized to the 0-1 scale, divided by 100 at extraction when the raw
value exceeded 1) is ≥ 0.6, or the extracted credit risk contains
"high" (case-insensitively), or the extracted credit score is below
600. -/
theorem C6_heuristic_decline_iff (results : List AgentResult)
    (hA : approveStmtMatch (joinedLowerTexts results) = false)
    (hD : declineStmtMatch (joinedLowerTexts results) = false) :
    (computeFinalDecision results).status = .Declined ↔
      ((∃ q : ℚ, (extractSignals results).fraudProb = some (.num q) ∧ 6 / 10 ≤ q) ∨
       (∃ rs : String, (extractSignals results).creditRisk = some rs ∧
          containsHighCI rs = true) ∨
       (∃ q : ℚ, (extractSignals results).creditScore = some q ∧ q < 600)) := by
  have hcd : computeFinalDecision results = decideByHeuristics (extractSignals results) := by
    simp [computeFinalDecision, hA, hD]
  rw [hcd, ← highFraudB_iff, ← highRiskB_iff, ← lowScoreB_iff]
  unfold decideByHeuristics
  by_cases hc : (highFraudB (extractSignals results) ||
      highRiskB (extractSignals results) || lowScoreB (extractSignals results)) = true
  · rw [if_pos hc]
    simp only [Bool.or_eq_true] at hc
    constructor
    · intro _
      tauto
    · intro _
      rfl
  · rw [if_neg hc]
    constructor
    · intro habs
      exact absurd habs (by simp)
    · intro hor
      exact absurd (by simp only [Bool.or_eq_true]; tauto) hc

/-- C6 witness: a fraud result reading `Fraud probability: 75%` (raw 75,
normalized to 0.75) together with a credit result reading
`Risk level: High` is declined, and the rationale names both signals. -/
theorem C6_witness :
    (computeFinalDecision
      [⟨some "fraud", some (.jstr "Fraud probability: 75%")⟩,
       ⟨some "credit", some (.jstr "Risk level: High")⟩]).status = .Declined ∧
    (computeFinalDecision
      [⟨some "fraud", some (.jstr "Fraud probability: 75%")⟩,
       ⟨some "credit", some (.jstr "Risk level: High")⟩]).rationale =
      "Fraud probability 75%; Credit risk High" := by
  constructor
  · exact (C6_heuristic_decline_iff _ (by decide) (by decide)).mpr
      (Or.inl ⟨3 / 4, by with_unfolding_all decide, by norm_num⟩)
  · with_unfolding_all decide

/-- C7, counterexample: the claim says that whenever no signal can be
extracted — offering "analysis unparsable as JSON" as such a case — the
aggregator returns `Approved` with the generic rationale.  A result
whose analysis text is `reject` is unparsable and yields no extracted
signal at all, yet the decline/reject keyword pattern (whose `reject`
branch needs no `decision` prefix) fires and the verdict is `Declined`. -/
theorem C7_counterexample :
    extractSignals [⟨none, some (.jstr "reject")⟩] = noSignals ∧
    computeFinalDecision [⟨none, some (.jstr "reject")⟩] =
      ⟨.Declined, "Explicit decline/reject found in agent outputs."⟩ ∧
    (computeFinalDecision [⟨none, some (.jstr "reject")⟩]).status ≠ .Approved := by
  refine ⟨by decide, by decide, by decide⟩

/-- C7, amended: for every result list from which no signal at all is
extracted AND whose concatenated texts match neither explicit-decision
pattern (which covers the empty list and results with missing or
non-string analysis), the aggregator returns the default `Approved`
verdict with the generic fallback rationale — and, being a total
function, it never raises. -/
theorem C7_no_signal_no_statement_default (results : List AgentResult)
    (hsig : extractSignals results = noSignals)
    (hA : approveStmtMatch (joinedLowerTexts results) = false)
    (hD : declineStmtMatch (joinedLowerTexts results) = false) :
    computeFinalDecision results =
      ⟨.Approved, "Heuristics indicate acceptable risk."⟩ := by
  have hcd : computeFinalDecision results = decideByHeuristics (extractSignals results) := by
    simp [computeFinalDecision, hA, hD]
  rw [hcd, hsig]
  decide

/-- C7 witness: the empty result list (zero usable worker outputs). -/
theorem C7_witness :
    computeFinalDecision [] =
      ⟨.Approved, "Heuristics indicate acceptable risk."⟩ :=
  C7_no_signal_no_statement_default [] rfl rfl rfl

/-- C8: evidence for the divergence between the configured per-worker
thresholds and the persisted flag: `updateAgentMetrics` persists
`isScaling = (currentLoad > 85)` for every worker (line 398), ignoring
the thresholds configured in `initializeAgentInstances` — for the esg
worker (threshold 60) at load 70 the claim requires `isScaling = true`,
but the code persists `false`. -/
theorem C8_is_scaling_ignores_threshold :
    agentConfigThreshold "esg-agent" = some 60 ∧
    (60 : ℚ) < 70 ∧
    updateAgentMetricsIsScaling 70 = false ∧
    (∀ load : ℚ, updateAgentMetricsIsScaling load = decide (load > 85)) ∧
    updateAgentMetricsIsScaling 86 = true := by
  refine ⟨by decide, by norm_num, by decide, fun load => rfl, by decide⟩

/-- C9: every load mutation keeps `0 < currentLoad ≤ 100`: dispatch adds
a bounded random amount and caps at 100, completion subtracts a bounded
random amount and floors at 5. -/
theorem C9_load_bounds (load r : ℚ) (h0 : 0 ≤ r) (h1 : r < 1)
    (hl : 0 < load) (hu : load ≤ 100) :
    (0 < dispatchLoad load r ∧ dispatchLoad load r ≤ 100) ∧
    (0 < completeLoad load r ∧ completeLoad load r ≤ 100) ∧
    5 ≤ completeLoad load r := by
  unfold dispatchLoad completeLoad
  have h25 : 0 ≤ r * 25 := mul_nonneg h0 (by norm_num)
  have h20 : 0 ≤ r * 20 := mul_nonneg h0 (by norm_num)
  refine ⟨⟨?_, min_le_left _ _⟩, ⟨?_, ?_⟩, le_max_left _ _⟩
  · exact lt_min (by norm_num) (by linarith)
  · exact lt_of_lt_of_le (by norm_num) (le_max_left _ _)
  · exact max_le (by norm_num) (by linarith)

/-- C9 witness: a worker already at 95 stays within (0, 100] on dispatch
and completion (random draw 1/2). -/
theorem C9_witness :
    (0 < dispatchLoad 95 (1 / 2) ∧ dispatchLoad 95 (1 / 2) ≤ 100) ∧
    (0 < completeLoad 95 (1 / 2) ∧ completeLoad 95 (1 / 2) ≤ 100) ∧
    5 ≤ completeLoad 95 (1 / 2) :=
  C9_load_bounds 95 (1 / 2) (by norm_num) (by norm_num) (by norm_num) (by norm_num)

/-- C10: when the concatenated texts contain BOTH an explicit approval
and an explicit decline/reject statement, approval wins: the approval
pattern is tested first (line 545 before line 548). -/
theorem C10_approval_wins_conflict (results : List AgentResult)
    (hA : approveStmtMatch (joinedLowerTexts results) = true)
    (hD : declineStmtMatch (joinedLowerTexts results) = true) :
    computeFinalDecision results =
      ⟨.Approved, "Explicit approval found in agent outputs."⟩ := by
  simp [computeFinalDecision, hA]

/-- C10 witness: a text carrying both `Decision: approved` and
`Final decision: rejected` yields `Approved`. -/
theorem C10_witness :
    computeFinalDecision
      [⟨some "credit", some (.jstr "Decision: approved. Final decision: rejected.")⟩] =
      ⟨.Approved, "Explicit approval found in agent outputs."⟩ :=
  C10_approval_wins_conflict _ (by decide) (by decide)

end MoeApp
